import Mathlib

/-!
Shallow embedding of the heleus APK-management client
(src/heleus/config.py, src/heleus/client.py, src/heleus/cli.py).

Bytes are lists of naturals, the local filesystem is an explicit state
record, and the network is an oracle mapping each issued request to
either a response or a transport exception message (the string form of
a raised requests.RequestException).  Every client operation is a pure
function of these states returning its result together with the list of
requests it actually issued, so that validation-before-transmission and
no-retry properties are statements about that list.
-/

namespace Heleus

/-- Raw bytes, as in a Python bytes object. -/
abbrev Bytes := List Nat

/-- An HTTP request as issued by the client: method, full URL, and the
body bytes transmitted (empty for plain GETs). -/
structure HRequest where
  method : String
  url : String
  body : Bytes
  deriving Repr, DecidableEq

/-- A server response: status code, raw body bytes, and the JSON object
view of the body used by response.json() (modelled as a flat
string-to-string association list). -/
structure HResponse where
  status_code : Nat
  body : Bytes
  jsonBody : List (String × String)
  deriving Repr, DecidableEq

/-- The network oracle: what happens when a given request is issued.
Except.error e models a raised requests.RequestException with str(e) = e. -/
abbrev Net := HRequest → Except String HResponse

/-- The shapes of the dictionaries the client returns as the second
component of its (bool, dict) results. -/
inductive RData where
  | json (j : List (String × String))
  | error (msg : String)
  | message (msg : String)
  deriving Repr, DecidableEq

/-- response.json().get(k, d) on the flat JSON object view. -/
def jsonGet (j : List (String × String)) (k d : String) : String :=
  match j.find? (fun kv => kv.1 == k) with
  | some kv => kv.2
  | none => d

/-! ## config.py -/

/-- The server section of the configuration document. -/
structure ServerConfig where
  host : String
  port : Int
  deriving Repr, DecidableEq

/-- The configuration document (config.json). -/
structure Config where
  server : ServerConfig
  deriving Repr, DecidableEq

/-- DEFAULT_CONFIG from config.py. -/
def DEFAULT_CONFIG : Config := ⟨⟨"localhost", 5000⟩⟩

/-- The state of the config file on disk: none means the file is absent
(FileNotFoundError on open), some none means it exists but its contents
do not parse as JSON (json.JSONDecodeError), some (some c) means it
parses to the document c. -/
abbrev ConfigFile := Option (Option Config)

/-- ConfigManager.load_config: returns the parsed document, or
DEFAULT_CONFIG when the file is absent or fails to parse. -/
def load_config (f : ConfigFile) : Config :=
  match f with
  | some (some c) => c
  | _ => DEFAULT_CONFIG

/-- ConfigManager.save_config: json.dump of the document; afterwards the
file exists and parses back to the same document. -/
def save_config (_f : ConfigFile) (c : Config) : ConfigFile := some (some c)

/-- ConfigManager.get_server_url. -/
def get_server_url (f : ConfigFile) : String :=
  let c := load_config f
  "http://" ++ c.server.host ++ ":" ++ toString c.server.port

/-- ConfigManager.set_server. -/
def set_server (f : ConfigFile) (host : String) (port : Int) : ConfigFile :=
  let c := load_config f
  save_config f { c with server := ⟨host, port⟩ }

/-- ConfigManager.get_server_info. -/
def get_server_info (f : ConfigFile) : ServerConfig :=
  (load_config f).server

/-! ## The local filesystem model -/

/-- Local disk state: regular files (path to contents) and directories. -/
structure LocalFS where
  files : List (String × Bytes)
  dirs : List String
  deriving Repr, DecidableEq

/-- Contents of the file at p, if a file is there. -/
def LocalFS.read (fs : LocalFS) (p : String) : Option Bytes :=
  (fs.files.find? (fun kv => kv.1 == p)).map (fun kv => kv.2)

/-- os.path.exists: true for files and directories alike. -/
def LocalFS.pathExists (fs : LocalFS) (p : String) : Bool :=
  fs.files.any (fun kv => kv.1 == p) || fs.dirs.contains p

/-- open(p, 'wb') followed by writing b: replaces any previous file at p. -/
def LocalFS.writeFile (fs : LocalFS) (p : String) (b : Bytes) : LocalFS :=
  { fs with files := (p, b) :: fs.files.filter (fun kv => kv.1 != p) }

/-- os.makedirs(d, exist_ok=True). -/
def LocalFS.makedirs (fs : LocalFS) (d : String) : LocalFS :=
  if fs.dirs.contains d then fs else { fs with dirs := d :: fs.dirs }

/-! ## The ProgressFile wrapper (client.py, inside push) -/

/-- A Python binary file handle open for reading: the full contents and
the current position. -/
structure FileStream where
  data : Bytes
  pos : Nat
  deriving Repr, DecidableEq

/-- f.read(size): a negative size reads everything remaining, a
non-negative size reads up to size bytes and advances the position. -/
def FileStream.read (f : FileStream) (size : Int) : Bytes × FileStream :=
  if size < 0 then
    (f.data.drop f.pos, { f with pos := f.data.length })
  else
    ((f.data.drop f.pos).take size.toNat,
      { f with pos := min (f.pos + size.toNat) f.data.length })

/-- The ProgressFile wrapper: an underlying file and the tqdm progress
bar counter (bytes reported so far). -/
structure ProgressFile where
  file : FileStream
  pbar : Nat
  deriving Repr, DecidableEq

/-- ProgressFile.read: reads from the underlying file (read() when size
is -1, read(size) otherwise), advances the progress bar by the number of
bytes obtained, and returns the data. -/
def ProgressFile.read (pf : ProgressFile) (size : Int) : Bytes × ProgressFile :=
  let r := if size == -1 then pf.file.read (-1) else pf.file.read size
  (r.1, { file := r.2, pbar := pf.pbar + r.1.length })

/-! ## client.py: PerseusClient -/

/-- Outcome of a client operation: the returned (bool, dict) pair (none
when an uncaught exception escapes), the local filesystem afterwards,
and the requests that were actually issued. -/
structure OpOutcome where
  result : Option (Bool × RData)
  fs : LocalFS
  reqs : List HRequest
  deriving Repr, DecidableEq

/-- PerseusClient.check_server_status: GET /api/v1/status, true exactly
on a 200 response; a transport exception yields false. -/
def check_server_status (base_url : String) (net : Net) : Bool :=
  match net ⟨"GET", base_url ++ "/api/v1/status", []⟩ with
  | .ok resp => resp.status_code == 200
  | .error _ => false

/-- apk_path.lower().endswith('.apk'), spelled out on the character
sequence: lowercase every character and compare the trailing characters
with ".apk". -/
def lowerEndsWithApk (p : String) : Bool :=
  let chars := p.data.map Char.toLower
  let ext := ".apk".data
  ext.length ≤ chars.length && chars.drop (chars.length - ext.length) == ext

/-- PerseusClient.push: validates existence and the (case-insensitive)
.apk extension, then POSTs the file contents to /api/v1/push.  The whole
request is guarded by try/except requests.RequestException. -/
def push (base_url : String) (fs : LocalFS) (net : Net) (apk_path : String) :
    OpOutcome :=
  if !(fs.pathExists apk_path) then
    ⟨some (false, .error ("APK file '" ++ apk_path ++ "' not found")), fs, []⟩
  else if !(lowerEndsWithApk apk_path) then
    ⟨some (false, .error "File must be an APK"), fs, []⟩
  else
    let req : HRequest := ⟨"POST", base_url ++ "/api/v1/push", (fs.read apk_path).getD []⟩
    match net req with
    | .error e => ⟨some (false, .error ("Error pushing APK: " ++ e)), fs, [req]⟩
    | .ok resp =>
      if resp.status_code == 200 then
        ⟨some (true, .json resp.jsonBody), fs, [req]⟩
      else
        ⟨some (false, .error (jsonGet resp.jsonBody "error" "Unknown error")), fs, [req]⟩

/-- Python truthiness of the optional app_name argument: None and the
empty string are both falsy. -/
def strTruthy : Option String → Bool
  | some s => s != ""
  | none => false

/-- PerseusClient.pull.  With a truthy app_name it GETs
/api/v1/pull/{version}/{app_name} and on 200 creates the app_name
directory and writes app_name/app_name.apk with the response body;
otherwise it GETs the bundle URL and on 200 parses the body as a zip
archive and extracts every entry into the current working directory
(unzip models zipfile: none means zipfile.BadZipFile would be raised,
which the code does not catch, hence result none). -/
def pull (base_url : String) (fs : LocalFS)
    (unzip : Bytes → Option (List (String × Bytes))) (net : Net)
    (app_name : Option String) (version : String) : OpOutcome :=
  if strTruthy app_name then
    let s := app_name.getD ""
    let req : HRequest := ⟨"GET", base_url ++ "/api/v1/pull/" ++ version ++ "/" ++ s, []⟩
    match net req with
    | .error e => ⟨some (false, .error ("Error pulling APK(s): " ++ e)), fs, [req]⟩
    | .ok resp =>
      if resp.status_code == 200 then
        let output_path := s ++ "/" ++ s ++ ".apk"
        ⟨some (true, .message ("Successfully downloaded to " ++ output_path)),
          (fs.makedirs s).writeFile output_path resp.body, [req]⟩
      else
        ⟨some (false, .error (jsonGet resp.jsonBody "error" "Unknown error")), fs, [req]⟩
  else
    let url := if version != "latest" then base_url ++ "/api/v1/pull/" ++ version
               else base_url ++ "/api/v1/pull"
    let req : HRequest := ⟨"GET", url, []⟩
    match net req with
    | .error e => ⟨some (false, .error ("Error pulling APK(s): " ++ e)), fs, [req]⟩
    | .ok resp =>
      if resp.status_code == 200 then
        match unzip resp.body with
        | none => ⟨none, fs, [req]⟩
        | some entries =>
          ⟨some (true, .message ("Successfully downloaded and extracted version " ++ version)),
            entries.foldl (fun a en => a.writeFile en.1 en.2) fs, [req]⟩
      else
        ⟨some (false, .error (jsonGet resp.jsonBody "error" "Unknown error")), fs, [req]⟩

/-- The default of pull's version parameter (version: str = "latest"). -/
def pull_version_default : String := "latest"

/-- PerseusClient.freeze: GET /api/v1/freeze/{version}. -/
def freeze (base_url : String) (net : Net) (version : String) :
    (Bool × RData) × List HRequest :=
  let req : HRequest := ⟨"GET", base_url ++ "/api/v1/freeze/" ++ version, []⟩
  match net req with
  | .error e => ((false, .error ("Error freezing version: " ++ e)), [req])
  | .ok resp =>
    if resp.status_code == 200 then ((true, .json resp.jsonBody), [req])
    else ((false, .error (jsonGet resp.jsonBody "error" "Unknown error")), [req])

/-- PerseusClient.list_versions: GET /api/v1/versions. -/
def list_versions (base_url : String) (net : Net) : (Bool × RData) × List HRequest :=
  let req : HRequest := ⟨"GET", base_url ++ "/api/v1/versions", []⟩
  match net req with
  | .error e => ((false, .error ("Error listing versions: " ++ e)), [req])
  | .ok resp =>
    if resp.status_code == 200 then ((true, .json resp.jsonBody), [req])
    else ((false, .error (jsonGet resp.jsonBody "error" "Unknown error")), [req])

/-- PerseusClient.list_apps: GET /api/v1/apps. -/
def list_apps (base_url : String) (net : Net) : (Bool × RData) × List HRequest :=
  let req : HRequest := ⟨"GET", base_url ++ "/api/v1/apps", []⟩
  match net req with
  | .error e => ((false, .error ("Error listing apps: " ++ e)), [req])
  | .ok resp =>
    if resp.status_code == 200 then ((true, .json resp.jsonBody), [req])
    else ((false, .error (jsonGet resp.jsonBody "error" "Unknown error")), [req])

/-- PerseusClient.list_all_app_versions: GET /api/v1/apps/all. -/
def list_all_app_versions (base_url : String) (net : Net) :
    (Bool × RData) × List HRequest :=
  let req : HRequest := ⟨"GET", base_url ++ "/api/v1/apps/all", []⟩
  match net req with
  | .error e => ((false, .error ("Error listing app versions: " ++ e)), [req])
  | .ok resp =>
    if resp.status_code == 200 then ((true, .json resp.jsonBody), [req])
    else ((false, .error (jsonGet resp.jsonBody "error" "Unknown error")), [req])

/-! ## cli.py -/

/-- The list sub-commands. -/
inductive ListCmd where
  | versions
  | apps
  | all
  deriving Repr, DecidableEq

/-- The config sub-commands. -/
inductive ConfigCmd where
  | server (host : String) (port : Int)
  | showConfig
  deriving Repr, DecidableEq

/-- A parsed top-level command (args.command plus its arguments); the
optional sub-command of config and list is None when absent. -/
inductive Cmd where
  | config (config_command : Option ConfigCmd)
  | list (list_command : Option ListCmd)
  | push (apk_path : String)
  | pull (app_name : Option String) (version : String)
  | freeze (version : String)
  deriving Repr, DecidableEq

/-- argparse for the pull command: app_name is optional (nargs zero-or-
one), version is optional with default "latest". -/
def parsePullArgs (argv : List String) : Option String × String :=
  (argv.get? 0, (argv.get? 1).getD "latest")

/-- handle_list_command: dispatches on the list sub-command, exit code 0
on success, 1 on an invalid (missing) sub-command or an operation
error. -/
def handle_list_command (base_url : String) (net : Net)
    (list_command : Option ListCmd) : Int :=
  match list_command with
  | some .versions => if (list_versions base_url net).1.1 then 0 else 1
  | some .apps => if (list_apps base_url net).1.1 then 0 else 1
  | some .all => if (list_all_app_versions base_url net).1.1 then 0 else 1
  | none => 1

/-- handle_config_command: config server updates the config file and
returns 0, config show returns 0, an invalid (missing) sub-command
returns 1. -/
def handle_config_command (cf : ConfigFile) (config_command : Option ConfigCmd) :
    Int × ConfigFile :=
  match config_command with
  | some (.server host port) => (0, set_server cf host port)
  | some .showConfig => (0, cf)
  | none => (1, cf)

/-- cli.main over parsed arguments: returns the exit code together with
the config file and local filesystem afterwards; none models an
uncaught exception escaping (only possible through pull's bundle
extraction). -/
def main (cf : ConfigFile) (fs : LocalFS)
    (unzip : Bytes → Option (List (String × Bytes))) (net : Net)
    (args : Option Cmd) : Option (Int × ConfigFile × LocalFS) :=
  match args with
  | none => some (1, cf, fs)
  | some (.config c) =>
    let r := handle_config_command cf c
    some (r.1, r.2, fs)
  | some (.list l) =>
    some (handle_list_command (get_server_url cf) net l, cf, fs)
  | some (.push apk_path) =>
    let base := get_server_url cf
    if check_server_status base net then
      let o := push base fs net apk_path
      match o.result with
      | some (success, _) => some (if success then 0 else 1, cf, o.fs)
      | none => none
    else some (1, cf, fs)
  | some (.pull app_name version) =>
    let base := get_server_url cf
    if check_server_status base net then
      let o := pull base fs unzip net app_name version
      match o.result with
      | some (success, _) => some (if success then 0 else 1, cf, o.fs)
      | none => none
    else some (1, cf, fs)
  | some (.freeze version) =>
    let base := get_server_url cf
    if check_server_status base net then
      let r := freeze base net version
      some (if r.1.1 then 0 else 1, cf, fs)
    else some (1, cf, fs)

/-! ## Helper lemmas -/

theorem LocalFS.read_writeFile_self (fs : LocalFS) (p : String) (b : Bytes) :
    (fs.writeFile p b).read p = some b := by
  simp [LocalFS.read, LocalFS.writeFile]

theorem LocalFS.read_writeFile_of_ne (fs : LocalFS) (p q : String) (b : Bytes)
    (h : q ≠ p) : (fs.writeFile q b).read p = fs.read p := by
  simp only [LocalFS.read, LocalFS.writeFile]
  rw [List.find?_cons_of_neg _ (by simp [h])]
  congr 1
  induction fs.files with
  | nil => rfl
  | cons kv rest ih =>
    by_cases hk : kv.1 = q
    · rw [List.filter_cons_of_neg (by simp [hk]),
        List.find?_cons_of_neg _ (by simp [hk, h]), ih]
    · rw [List.filter_cons_of_pos (by simp [hk])]
      by_cases hp : kv.1 = p
      · rw [List.find?_cons_of_pos _ (by simp [hp]),
          List.find?_cons_of_pos _ (by simp [hp])]
      · rw [List.find?_cons_of_neg _ (by simp [hp]),
          List.find?_cons_of_neg _ (by simp [hp]), ih]

theorem LocalFS.dirs_writeFile (fs : LocalFS) (p : String) (b : Bytes) :
    (fs.writeFile p b).dirs = fs.dirs := rfl

theorem LocalFS.contains_makedirs (fs : LocalFS) (d : String) :
    (fs.makedirs d).dirs.contains d = true := by
  simp only [LocalFS.makedirs]
  split
  · assumption
  · simp [List.contains_cons]

/-- Extraction of a list of archive entries, as pull's bundle branch
performs it. -/
def extractAll (entries : List (String × Bytes)) (fs : LocalFS) : LocalFS :=
  entries.foldl (fun a en => a.writeFile en.1 en.2) fs

theorem read_extractAll_of_not_mem (entries : List (String × Bytes))
    (fs : LocalFS) (p : String) (h : ∀ en ∈ entries, en.1 ≠ p) :
    (extractAll entries fs).read p = fs.read p := by
  induction entries generalizing fs with
  | nil => rfl
  | cons en rest ih =>
    rw [extractAll, List.foldl_cons, ← extractAll,
      ih _ (fun x hx => h x (List.mem_cons_of_mem en hx)),
      LocalFS.read_writeFile_of_ne _ _ _ _ (h en (List.mem_cons_self en rest))]

theorem read_extractAll_of_mem (entries : List (String × Bytes))
    (fs : LocalFS) (hnd : (entries.map Prod.fst).Nodup)
    (en : String × Bytes) (hmem : en ∈ entries) :
    (extractAll entries fs).read en.1 = some en.2 := by
  induction entries generalizing fs with
  | nil => cases hmem
  | cons hd rest ih =>
    rw [List.map_cons, List.nodup_cons] at hnd
    rw [extractAll, List.foldl_cons, ← extractAll]
    rcases List.mem_cons.mp hmem with h | h
    · subst h
      rw [read_extractAll_of_not_mem _ _ _
          (fun x hx hEq =>
            hnd.1 (by rw [← hEq]; exact List.mem_map_of_mem Prod.fst hx)),
        LocalFS.read_writeFile_self]
    · exact ih _ hnd.2 h

/-! ## Claim theorems -/

/-- Claim C8: when the configuration file is absent or does not parse as
JSON, load_config returns the default configuration with host
"localhost" and port 5000, and get_server_url returns
"http://localhost:5000". -/
theorem load_config_defaults :
    load_config none = DEFAULT_CONFIG ∧
    load_config (some none) = DEFAULT_CONFIG ∧
    DEFAULT_CONFIG.server.host = "localhost" ∧
    DEFAULT_CONFIG.server.port = 5000 ∧
    get_server_url none = "http://localhost:5000" ∧
    get_server_url (some none) = "http://localhost:5000" := by
  refine ⟨rfl, rfl, rfl, rfl, ?_, ?_⟩ <;> decide

/-- Claim C9: the ProgressFile wrapper is a pure read-progress observer:
for every underlying file and every size argument (including -1), it
returns exactly the bytes the underlying read would return, leaves the
underlying file in the same state, and only advances the progress
counter by the number of bytes read. -/
theorem progressFile_read_transparent (pf : ProgressFile) (size : Int) :
    (pf.read size).1 = (pf.file.read size).1 ∧
    (pf.read size).2.file = (pf.file.read size).2 ∧
    (pf.read size).2.pbar = pf.pbar + (pf.file.read size).1.length := by
  by_cases h : size = -1
  · subst h; exact ⟨rfl, rfl, rfl⟩
  · have hb : (size == -1) = false := by simpa using h
    simp [ProgressFile.read, hb]

/-- Claim C10: setting the server configuration and then reading it back
returns exactly the host and port that were set, for every prior state
of the configuration file. -/
theorem set_server_get_server_info_roundtrip (cf : ConfigFile)
    (host : String) (port : Int) :
    get_server_info (set_server cf host port) = ⟨host, port⟩ := rfl

/-- Claim C1: push validates before transmitting: when no file or
directory exists at the path, or the path does not end with the .apk
extension (case-insensitively, as the code lowercases first), push
returns (False, an error dictionary) and issues no request; when both
checks pass, exactly one POST of the file contents to /api/v1/push is
issued. -/
theorem push_validates_before_transmitting
    (base_url : String) (fs : LocalFS) (net : Net) (apk_path : String) :
    (fs.pathExists apk_path = false →
      push base_url fs net apk_path =
        ⟨some (false, .error ("APK file '" ++ apk_path ++ "' not found")), fs, []⟩) ∧
    (fs.pathExists apk_path = true → lowerEndsWithApk apk_path = false →
      push base_url fs net apk_path =
        ⟨some (false, .error "File must be an APK"), fs, []⟩) ∧
    (fs.pathExists apk_path = true → lowerEndsWithApk apk_path = true →
      (push base_url fs net apk_path).reqs =
        [⟨"POST", base_url ++ "/api/v1/push", (fs.read apk_path).getD []⟩]) := by
  refine ⟨fun h1 => ?_, fun h1 h2 => ?_, fun h1 h2 => ?_⟩
  · simp [push, h1]
  · simp [push, h1, h2]
  · simp only [push, h1, h2, Bool.not_true, Bool.false_eq_true, if_false]
    split
    · rfl
    · split <;> rfl

theorem push_validates_before_transmitting_witness :
    push "http://h" ⟨[("a.apk", [7])], []⟩ (fun _ => .error "down") "missing.apk" =
      ⟨some (false, .error "APK file 'missing.apk' not found"),
        ⟨[("a.apk", [7])], []⟩, []⟩ :=
  (push_validates_before_transmitting "http://h" ⟨[("a.apk", [7])], []⟩
      (fun _ => .error "down") "missing.apk").1 rfl

/-- Claim C2: a single-app pull whose response has a non-200 status
returns (False, an error dictionary) and leaves the local filesystem
exactly as it was: no directory and no partial file are created. -/
theorem pull_non200_leaves_disk_unchanged
    (base_url : String) (fs : LocalFS)
    (unzip : Bytes → Option (List (String × Bytes))) (net : Net)
    (s version : String) (resp : HResponse) (hs : s ≠ "")
    (hnet : net ⟨"GET", base_url ++ "/api/v1/pull/" ++ version ++ "/" ++ s, []⟩ =
      .ok resp)
    (hst : resp.status_code ≠ 200) :
    pull base_url fs unzip net (some s) version =
      ⟨some (false, .error (jsonGet resp.jsonBody "error" "Unknown error")), fs,
        [⟨"GET", base_url ++ "/api/v1/pull/" ++ version ++ "/" ++ s, []⟩]⟩ := by
  have ht : strTruthy (some s) = true := by simp [strTruthy, hs]
  have hb : (resp.status_code == 200) = false := by simpa using hst
  simp [pull, ht, hnet, hb]

theorem pull_non200_leaves_disk_unchanged_witness :
    pull "http://h" ⟨[], []⟩ (fun _ => none)
      (fun _ => .ok ⟨404, [], [("error", "App not found")]⟩) (some "calc") "latest" =
      ⟨some (false,
          .error (jsonGet [("error", "App not found")] "error" "Unknown error")),
        ⟨[], []⟩, [⟨"GET", "http://h" ++ "/api/v1/pull/" ++ "latest" ++ "/" ++ "calc", []⟩]⟩ :=
  pull_non200_leaves_disk_unchanged "http://h" ⟨[], []⟩ (fun _ => none)
    (fun _ => .ok ⟨404, [], [("error", "App not found")]⟩) "calc" "latest"
    ⟨404, [], [("error", "App not found")]⟩ (by decide) rfl (by decide)

/-- Claim C3: on a transport failure (a raised requests.RequestException,
modelled by the oracle returning an error for every request) each client
operation issues exactly one request, retries nothing, and returns a
single (False, error-dictionary) result built from the human-readable
exception text instead of raising. -/
theorem client_no_retry_on_transport_failure
    (base_url : String) (fs : LocalFS)
    (unzip : Bytes → Option (List (String × Bytes))) (net : Net)
    (e apk_path version : String) (app_name : Option String)
    (hfail : ∀ r, net r = .error e) :
    (fs.pathExists apk_path = true → lowerEndsWithApk apk_path = true →
      push base_url fs net apk_path =
        ⟨some (false, .error ("Error pushing APK: " ++ e)), fs,
          [⟨"POST", base_url ++ "/api/v1/push", (fs.read apk_path).getD []⟩]⟩) ∧
    ((pull base_url fs unzip net app_name version).result =
        some (false, .error ("Error pulling APK(s): " ++ e)) ∧
      (pull base_url fs unzip net app_name version).fs = fs ∧
      (pull base_url fs unzip net app_name version).reqs.length = 1) ∧
    freeze base_url net version =
      ((false, .error ("Error freezing version: " ++ e)),
        [⟨"GET", base_url ++ "/api/v1/freeze/" ++ version, []⟩]) ∧
    list_versions base_url net =
      ((false, .error ("Error listing versions: " ++ e)),
        [⟨"GET", base_url ++ "/api/v1/versions", []⟩]) ∧
    list_apps base_url net =
      ((false, .error ("Error listing apps: " ++ e)),
        [⟨"GET", base_url ++ "/api/v1/apps", []⟩]) ∧
    list_all_app_versions base_url net =
      ((false, .error ("Error listing app versions: " ++ e)),
        [⟨"GET", base_url ++ "/api/v1/apps/all", []⟩]) := by
  refine ⟨fun h1 h2 => ?_, ?_, ?_, ?_, ?_, ?_⟩
  · simp [push, h1, h2, hfail]
  · by_cases ht : strTruthy app_name = true <;>
      simp only [Bool.not_eq_true] at ht <;>
      simp [pull, ht, hfail]
  · simp [freeze, hfail]
  · simp [list_versions, hfail]
  · simp [list_apps, hfail]
  · simp [list_all_app_versions, hfail]

theorem client_no_retry_on_transport_failure_witness :
    push "http://h" ⟨[("a.apk", [1, 2])], []⟩ (fun _ => .error "conn refused") "a.apk" =
      ⟨some (false, .error ("Error pushing APK: " ++ "conn refused")),
        ⟨[("a.apk", [1, 2])], []⟩,
        [⟨"POST", "http://h" ++ "/api/v1/push", [1, 2]⟩]⟩ ∧
    freeze "http://h" (fun _ => .error "conn refused") "v1" =
      ((false, .error ("Error freezing version: " ++ "conn refused")),
        [⟨"GET", "http://h" ++ "/api/v1/freeze/" ++ "v1", []⟩]) :=
  have h := client_no_retry_on_transport_failure "http://h" ⟨[("a.apk", [1, 2])], []⟩
      (fun _ => none) (fun _ => .error "conn refused") "conn refused" "a.apk" "v1"
      (some "calc") (fun _ => rfl)
  ⟨h.1 (by decide) (by decide), h.2.2.1⟩

theorem pull_reqs (base_url : String) (fs : LocalFS)
    (unzip : Bytes → Option (List (String × Bytes))) (net : Net)
    (app_name : Option String) (version : String) :
    (pull base_url fs unzip net app_name version).reqs =
      [if strTruthy app_name then
        ⟨"GET", base_url ++ "/api/v1/pull/" ++ version ++ "/" ++ app_name.getD "", []⟩
      else
        ⟨"GET", if version != "latest" then base_url ++ "/api/v1/pull/" ++ version
                else base_url ++ "/api/v1/pull", []⟩] := by
  by_cases ht : strTruthy app_name = true <;>
    simp only [Bool.not_eq_true] at ht <;>
    simp only [pull, ht, if_true, if_false, Bool.false_eq_true, Bool.true_eq_false] <;>
    split <;> first
      | rfl
      | (split <;> first | rfl | (split <;> rfl))

/-- Claim C4: pull selects the request URL exactly as the interface
specifies: a (non-empty) app_name yields
GET base/api/v1/pull/{version}/{app_name}; no app_name with version
"latest" yields GET base/api/v1/pull; no app_name with any other version
yields GET base/api/v1/pull/{version}; and the version argument defaults
to "latest" both for the client method and for the parsed CLI pull
command. -/
theorem pull_url_selection (base_url : String) (fs : LocalFS)
    (unzip : Bytes → Option (List (String × Bytes))) (net : Net)
    (s version : String) (argv : List String) (hs : s ≠ "") :
    ((pull base_url fs unzip net (some s) version).reqs =
      [⟨"GET", base_url ++ "/api/v1/pull/" ++ version ++ "/" ++ s, []⟩]) ∧
    ((pull base_url fs unzip net none "latest").reqs =
      [⟨"GET", base_url ++ "/api/v1/pull", []⟩]) ∧
    (version ≠ "latest" →
      (pull base_url fs unzip net none version).reqs =
        [⟨"GET", base_url ++ "/api/v1/pull/" ++ version, []⟩]) ∧
    pull_version_default = "latest" ∧
    (argv.length ≤ 1 → (parsePullArgs argv).2 = "latest") := by
  refine ⟨?_, ?_, fun hv => ?_, rfl, fun hlen => ?_⟩
  · rw [pull_reqs]
    simp [strTruthy, hs]
  · rw [pull_reqs]
    simp [strTruthy]
  · rw [pull_reqs]
    simp [strTruthy, bne, hv]
  · match argv with
    | [] => rfl
    | [a] => rfl
    | a :: b :: t => simp [List.length_cons] at hlen

theorem pull_url_selection_witness :
    (pull "http://h" ⟨[], []⟩ (fun _ => none) (fun _ => .error "down")
        (some "calc") "r1").reqs =
      [⟨"GET", "http://h" ++ "/api/v1/pull/" ++ "r1" ++ "/" ++ "calc", []⟩] :=
  (pull_url_selection "http://h" ⟨[], []⟩ (fun _ => none) (fun _ => .error "down")
      "calc" "r1" [] (by decide)).1

/-- Claim C5: a successful single-app pull (200 response) creates the
app_name directory, writes exactly the response body at
app_name/app_name.apk, and returns (True, a message dictionary). -/
theorem pull_single_success_writes_response_body (base_url : String)
    (fs : LocalFS) (unzip : Bytes → Option (List (String × Bytes))) (net : Net)
    (s version : String) (resp : HResponse) (hs : s ≠ "")
    (hnet : net ⟨"GET", base_url ++ "/api/v1/pull/" ++ version ++ "/" ++ s, []⟩ =
      .ok resp)
    (hst : resp.status_code = 200) :
    pull base_url fs unzip net (some s) version =
      ⟨some (true, .message ("Successfully downloaded to " ++ (s ++ "/" ++ s ++ ".apk"))),
        (fs.makedirs s).writeFile (s ++ "/" ++ s ++ ".apk") resp.body,
        [⟨"GET", base_url ++ "/api/v1/pull/" ++ version ++ "/" ++ s, []⟩]⟩ ∧
    (pull base_url fs unzip net (some s) version).fs.read (s ++ "/" ++ s ++ ".apk") =
      some resp.body ∧
    (pull base_url fs unzip net (some s) version).fs.dirs.contains s = true := by
  have ht : strTruthy (some s) = true := by simp [strTruthy, hs]
  have heq : pull base_url fs unzip net (some s) version =
      ⟨some (true, .message ("Successfully downloaded to " ++ (s ++ "/" ++ s ++ ".apk"))),
        (fs.makedirs s).writeFile (s ++ "/" ++ s ++ ".apk") resp.body,
        [⟨"GET", base_url ++ "/api/v1/pull/" ++ version ++ "/" ++ s, []⟩]⟩ := by
    simp [pull, ht, hnet, hst]
  refine ⟨heq, ?_, ?_⟩
  · rw [heq]
    exact LocalFS.read_writeFile_self (fs.makedirs s) (s ++ "/" ++ s ++ ".apk") resp.body
  · rw [heq]
    exact LocalFS.contains_makedirs fs s

theorem pull_single_success_writes_response_body_witness :
    pull "http://h" ⟨[], []⟩ (fun _ => none)
        (fun _ => .ok ⟨200, [9, 8], []⟩) (some "calc") "latest" =
      ⟨some (true,
          .message ("Successfully downloaded to " ++ ("calc" ++ "/" ++ "calc" ++ ".apk"))),
        ((⟨[], []⟩ : LocalFS).makedirs "calc").writeFile
          ("calc" ++ "/" ++ "calc" ++ ".apk") [9, 8],
        [⟨"GET", "http://h" ++ "/api/v1/pull/" ++ "latest" ++ "/" ++ "calc", []⟩]⟩ :=
  (pull_single_success_writes_response_body "http://h" ⟨[], []⟩ (fun _ => none)
      (fun _ => .ok ⟨200, [9, 8], []⟩) "calc" "latest" ⟨200, [9, 8], []⟩
      (by decide) rfl rfl).1

/-- Claim C6: a successful bundle pull (no app_name, 200 response whose
body parses as an archive) extracts every contained entry into the
current working directory under its own name — none skipped, none
renamed — and returns (True, a message dictionary). -/
theorem pull_bundle_extracts_every_entry (base_url : String) (fs : LocalFS)
    (unzip : Bytes → Option (List (String × Bytes))) (net : Net)
    (version : String) (resp : HResponse) (entries : List (String × Bytes))
    (hnet : net ⟨"GET",
        if version != "latest" then base_url ++ "/api/v1/pull/" ++ version
        else base_url ++ "/api/v1/pull", []⟩ = .ok resp)
    (hst : resp.status_code = 200)
    (hz : unzip resp.body = some entries)
    (hnd : (entries.map Prod.fst).Nodup) :
    pull base_url fs unzip net none version =
      ⟨some (true, .message ("Successfully downloaded and extracted version " ++ version)),
        extractAll entries fs,
        [⟨"GET", if version != "latest" then base_url ++ "/api/v1/pull/" ++ version
                 else base_url ++ "/api/v1/pull", []⟩]⟩ ∧
    ∀ en ∈ entries,
      (pull base_url fs unzip net none version).fs.read en.1 = some en.2 := by
  have heq : pull base_url fs unzip net none version =
      ⟨some (true, .message ("Successfully downloaded and extracted version " ++ version)),
        extractAll entries fs,
        [⟨"GET", if version != "latest" then base_url ++ "/api/v1/pull/" ++ version
                 else base_url ++ "/api/v1/pull", []⟩]⟩ := by
    simp only [pull, strTruthy, Bool.false_eq_true, if_false, hnet, hst, hz,
      beq_self_eq_true, if_true, extractAll]
  refine ⟨heq, fun en hen => ?_⟩
  rw [heq]
  exact read_extractAll_of_mem entries fs hnd en hen

theorem pull_bundle_extracts_every_entry_witness :
    pull "http://h" ⟨[], []⟩
        (fun b => if b == [5] then some [("app1.apk", [1]), ("app2.apk", [2])] else none)
        (fun _ => .ok ⟨200, [5], []⟩) none "latest" =
      ⟨some (true, .message ("Successfully downloaded and extracted version " ++ "latest")),
        extractAll [("app1.apk", [1]), ("app2.apk", [2])] ⟨[], []⟩,
        [⟨"GET", if "latest" != "latest" then "http://h" ++ "/api/v1/pull/" ++ "latest"
                 else "http://h" ++ "/api/v1/pull", []⟩]⟩ :=
  (pull_bundle_extracts_every_entry "http://h" ⟨[], []⟩
      (fun b => if b == [5] then some [("app1.apk", [1]), ("app2.apk", [2])] else none)
      (fun _ => .ok ⟨200, [5], []⟩) "latest" ⟨200, [5], []⟩
      [("app1.apk", [1]), ("app2.apk", [2])] rfl rfl (by decide) (by decide)).1

/-- Claim C7: the CLI main function returns exit code 0 exactly when the
requested operation succeeds and 1 on every failure: no command, a
missing (invalid) config or list sub-command, a failed server status
check for push, pull and freeze, and any operation-level error reported
by the client; on the success side, config commands return 0, list
commands return 0 exactly when the listing succeeds, and push, pull and
freeze return 0 exactly when the client reports success. -/
theorem main_exit_codes (cf : ConfigFile) (fs : LocalFS)
    (unzip : Bytes → Option (List (String × Bytes))) (net : Net)
    (host apk_path version : String) (port : Int) (app_name : Option String) :
    (main cf fs unzip net none = some (1, cf, fs)) ∧
    (main cf fs unzip net (some (.config none)) = some (1, cf, fs)) ∧
    (main cf fs unzip net (some (.config (some (.server host port)))) =
      some (0, set_server cf host port, fs)) ∧
    (main cf fs unzip net (some (.config (some .showConfig))) = some (0, cf, fs)) ∧
    (main cf fs unzip net (some (.list none)) = some (1, cf, fs)) ∧
    (∀ lc : ListCmd, main cf fs unzip net (some (.list (some lc))) =
      some (handle_list_command (get_server_url cf) net (some lc), cf, fs)) ∧
    (∀ lc : ListCmd, handle_list_command (get_server_url cf) net (some lc) =
      if (match lc with
          | .versions => (list_versions (get_server_url cf) net).1.1
          | .apps => (list_apps (get_server_url cf) net).1.1
          | .all => (list_all_app_versions (get_server_url cf) net).1.1)
      then 0 else 1) ∧
    (check_server_status (get_server_url cf) net = false →
      main cf fs unzip net (some (.push apk_path)) = some (1, cf, fs) ∧
      main cf fs unzip net (some (.pull app_name version)) = some (1, cf, fs) ∧
      main cf fs unzip net (some (.freeze version)) = some (1, cf, fs)) ∧
    (check_server_status (get_server_url cf) net = true →
      (∀ b d, (push (get_server_url cf) fs net apk_path).result = some (b, d) →
        main cf fs unzip net (some (.push apk_path)) =
          some (if b then 0 else 1, cf, (push (get_server_url cf) fs net apk_path).fs)) ∧
      (∀ b d,
        (pull (get_server_url cf) fs unzip net app_name version).result = some (b, d) →
        main cf fs unzip net (some (.pull app_name version)) =
          some (if b then 0 else 1, cf,
            (pull (get_server_url cf) fs unzip net app_name version).fs)) ∧
      (main cf fs unzip net (some (.freeze version)) =
        some (if (freeze (get_server_url cf) net version).1.1 then 0 else 1, cf, fs))) := by
  refine ⟨rfl, rfl, rfl, rfl, rfl, fun lc => rfl, fun lc => ?_, fun hdown => ?_,
    fun hup => ⟨fun b d hres => ?_, fun b d hres => ?_, ?_⟩⟩
  · cases lc <;> rfl
  · exact ⟨by simp [main, hdown], by simp [main, hdown], by simp [main, hdown]⟩
  · simp [main, hup, hres]
  · simp [main, hup, hres]
  · simp [main, hup]

theorem main_exit_codes_witness :
    main (some (some ⟨⟨"h", 1⟩⟩)) ⟨[], []⟩ (fun _ => none) (fun _ => .error "down")
      (some (.freeze "v1")) = some (1, some (some ⟨⟨"h", 1⟩⟩), ⟨[], []⟩) :=
  ((main_exit_codes (some (some ⟨⟨"h", 1⟩⟩)) ⟨[], []⟩ (fun _ => none)
      (fun _ => .error "down") "h" "x.apk" "v1" 1 none).2.2.2.2.2.2.2.1 rfl).2.2

end Heleus
